import Mathlib

/-!
Verification of the resolution/dispatch core of `src/xts.py` (the `XTS`
command-line front end).  The Python source is shallowly embedded below:
pure helpers become Lean functions, and the process-level behaviour of
`XTS.run` (configuration discovery, command resolution, plugin hook,
dispatch hand-off) becomes a pure function from an explicit environment
(command line, directory listing, file-system predicates, YAML parse
outcomes) to a run result consisting of an event trace and a final
outcome (dispatch to the external runner, or process termination with an
exit code and the messages printed on the way out).
-/

set_option autoImplicit false

namespace Xts

/-- A YAML value, as produced by `yaml.load` with `SafeLoader`.  The
embedding covers the constructors the configuration format uses
(scalars, sequences and string-keyed mappings); mappings are modelled as
association lists in document order. -/
inductive Yaml where
  | null
  | bool (b : Bool)
  | int (n : Int)
  | str (s : String)
  | seq (xs : List Yaml)
  | map (entries : List (String × Yaml))

/-- A loaded XTS configuration document: the top-level YAML mapping from
command names to command specs (`XTS._xts_config`). -/
abbrev ConfigDoc := List (String × Yaml)

/-- Python truthiness of a YAML value, as used by
`if self.config[parsed_args.command].get('command'):` in
`XTS._parse_first_arg`: `None`, `False`, `0`, empty strings and empty
containers are falsy. -/
def Yaml.truthy : Yaml → Bool
  | .null => false
  | .bool b => b
  | .int n => n != 0
  | .str s => s != ""
  | .seq xs => !xs.isEmpty
  | .map m => !m.isEmpty

/-- Python truthiness of `dict.get`'s result (`None` when the key is
absent, the value otherwise). -/
def truthyOpt : Option Yaml → Bool
  | none => false
  | some y => y.truthy

/-- One attempt of the pattern `.xts` followed by `$` at the current
position: the head character is any character other than a newline,
followed by the literal characters `x`, `t`, `s`, and the match must end
at the end of the string, where Python's `$` also accepts a position
just before a single trailing newline. -/
def matchHere : List Char → Bool
  | c :: x :: t :: s :: post =>
      c != '\n' && x == 'x' && t == 't' && s == 's' && (post == [] || post == ['\n'])
  | _ => false

/-- Semantics of Python `re.search(r'.xts$', s)` (no flags): the pattern
is tried at every start position and succeeds if any attempt matches.
This single regex implements the configuration-suffix convention in the
`xts_config` setter, in `XTS._parse_first_arg` and in
`XTS._find_xts_config`. -/
def dotXtsSearch : List Char → Bool
  | [] => false
  | c :: rest => matchHere (c :: rest) || dotXtsSearch rest

/-- The message printed by the module-level `error` helper
(`rich` markup included). -/
def errorMsg (m : String) : String := "[red][bold]ERROR:[/bold] " ++ m ++ "[/red]"

/-- The message printed by the module-level `info` helper. -/
def infoMsg (m : String) : String := "[yellow]" ++ m ++ "[/yellow]"

/-- A process termination: the `SystemExit` code and the messages
printed before exiting, in print order.  An uncaught exception (a YAML
parse error, or an `AttributeError` from calling `.get` on a non-dict)
terminates the interpreter with code 1; it is modelled with a
`Traceback` pseudo-message. -/
structure ExitInfo where
  code : Nat
  msgs : List String
deriving DecidableEq

/-- The module-level `error` helper: prints one red message and raises
`SystemExit(1)`. -/
def error (m : String) : ExitInfo := ⟨1, [errorMsg m]⟩

/-- The environment one `xts` process invocation observes.  `argv` is
`sys.argv[1:]` (the tokens after the program name), `cwdFiles` is
`os.listdir(os.getcwd())`, `pathExists` is `os.path.exists`, `readable`
is whether `open` succeeds without `PermissionError`, and `parseYaml p`
is the outcome of `yaml.load` on the content of `p` (`none` models a
raised parse error, `some doc` a successful parse into a top-level
mapping). -/
structure Env where
  argv : List String
  cwdFiles : List String
  pathExists : String → Bool
  readable : String → Bool
  parseYaml : String → Option ConfigDoc

/-- The `xts_config` property setter: validates existence and the
`.xts$` suffix of the given path, then loads the YAML content.  A
missing path or wrong suffix is a fatal `error`, a `PermissionError` is
a fatal `error` with a distinct message, and a YAML parse error
propagates as an uncaught exception (exit code 1). -/
def xtsConfigSetter (env : Env) (config : String) : Except ExitInfo ConfigDoc :=
  if env.pathExists config && dotXtsSearch config.data then
    if env.readable config then
      match env.parseYaml config with
      | some doc => .ok doc
      | none => .error ⟨1, ["Traceback: yaml parse error"]⟩
    else .error (error ("Could not read xts config: [" ++ config ++ "]"))
  else .error (error "xts config specified does not exist")

/-- `XTS._user_select_config`: prints one informational line, one prompt
line, then one ready-to-run invocation hint per candidate filename, and
raises `SystemExit(2)`. -/
def userSelectConfig (choices : List String) : ExitInfo :=
  ⟨2, infoMsg "Multiple xts file found in the current directory"
      :: "Please run one of the following commands to choose the file to use\n"
      :: choices.map (fun filename => "\txts " ++ filename ++ " ...")⟩

/-- `XTS._find_xts_config`: filters the working directory listing by the
suffix regex; more than one candidate delegates to
`_user_select_config`, zero candidates is a fatal `error`, and a single
candidate is loaded through the `xts_config` setter. -/
def findXtsConfig (env : Env) : Except ExitInfo ConfigDoc :=
  match env.cwdFiles.filter (fun filename => dotXtsSearch filename.data) with
  | [] => .error (error "no config found")
  | [f] => xtsConfigSetter env f
  | fs => .error (userSelectConfig fs)

/-- The configuration phase of `XTS._parse_first_arg`: if a first
command-line token is present and matches the suffix regex it is
consumed (`sys.argv.pop(1)`) and loaded through the setter; otherwise
the configuration is auto-discovered.  Returns the loaded document and
the argument list left for command parsing. -/
def configPhase (env : Env) : Except ExitInfo (ConfigDoc × List String) :=
  match env.argv with
  | [] =>
    match findXtsConfig env with
    | .ok doc => .ok (doc, [])
    | .error e => .error e
  | a :: rest =>
    if dotXtsSearch a.data then
      match xtsConfigSetter env a with
      | .ok doc => .ok (doc, rest)
      | .error e => .error e
    else
      match findXtsConfig env with
      | .ok doc => .ok (doc, a :: rest)
      | .error e => .error e

/-- The values `argparse` fills in for the subparser built in
`XTS._parse_first_arg`: the `--help`/`-h` flag and the `command`
positional. -/
structure ParsedArgs where
  help : Bool
  command : String
deriving DecidableEq

/-- Whether `argparse` treats a token as option-like rather than as a
candidate positional: it starts with `-` and is not the bare `-`. -/
def isOptionLike (s : String) : Bool :=
  match s.data with
  | '-' :: _ :: _ => true
  | _ => false

/-- One scan of the token list, modelling the interface of
`argparse.parse_known_args` for a parser with a `--help`/`-h`
store-true flag and one required positional: `--help`/`-h` sets the
help flag, the first `--` switches to positional-only mode, other
option-like tokens are left unrecognized (collected into the remaining
list), the first positional token fills `command`, and every further
token is collected into the remaining list.  Returns
(help flag, first positional if any, remaining tokens). -/
def scanTokens : List String → Bool → Bool → Option String → List String →
    Bool × Option String × List String
  | [], _, h, c, acc => (h, c, acc.reverse)
  | t :: ts, sep, h, c, acc =>
    if sep then
      match c with
      | none => scanTokens ts sep h (some t) acc
      | some _ => scanTokens ts sep h c (t :: acc)
    else if t == "--help" || t == "-h" then scanTokens ts sep true c acc
    else if t == "--" then scanTokens ts true h c acc
    else if isOptionLike t then scanTokens ts sep h c (t :: acc)
    else
      match c with
      | none => scanTokens ts sep h (some t) acc
      | some _ => scanTokens ts sep h c (t :: acc)

/-- Boundary model of `parser.parse_known_args()` for the subparser of
`XTS._parse_first_arg`: the first positional token must be one of
`choices` (the document keys); a missing positional or a value outside
`choices` is an argparse usage error, which prints usage and exits the
process with code 2. -/
def parseKnownArgs (choices : List String) (args : List String) :
    Except ExitInfo (ParsedArgs × List String) :=
  match scanTokens args false false none [] with
  | (h, some c, remaining) =>
      if c ∈ choices then .ok (⟨h, c⟩, remaining)
      else .error ⟨2, ["usage error: argument COMMAND: invalid choice"]⟩
  | (_, none, _) => .error ⟨2, ["usage error: the following arguments are required: COMMAND"]⟩

/-- Observable events of one run: the plugin hook call
(`XTS._run_plugins`, which receives the resolved command name) and the
hand-off to the external execution engine
(`super().run(config=self.config, args=...)`), carrying the selected
command name, its spec and the argument list. -/
inductive Event where
  | hook (command : String)
  | dispatch (command : String) (spec : Yaml) (args : List String)

/-- Final outcome of one run: process termination, or dispatch of the
resolved selection and remaining arguments to the external runner. -/
inductive Outcome where
  | terminated (e : ExitInfo)
  | dispatched (command : String) (spec : Yaml) (args : List String)

/-- The trace of one `xts` invocation: the events in order, and the
final outcome. -/
structure RunResult where
  events : List Event
  outcome : Outcome

/-- The tail of `XTS._parse_first_arg` after a successful parse: build
the single-entry selection `{command: xts_config.get(command)}`, fire
the plugin hook, append `--help` back if help was requested, re-append
the command name when the selected spec's `command` key is truthy, and
hand off.  Calling `.get('command')` on a selected spec that is not a
mapping raises `AttributeError` (uncaught, exit code 1) after the hook
has already fired; the `none` lookup branch mirrors the same crash on a
`None` selection and is unreachable because the parsed command is always
one of the keys. -/
def selectionPhase (doc : ConfigDoc) (pa : ParsedArgs) (remaining : List String) : RunResult :=
  match doc.lookup pa.command with
  | none => ⟨[Event.hook pa.command], .terminated ⟨1, ["Traceback: AttributeError"]⟩⟩
  | some (Yaml.map m) =>
    let remaining1 := if pa.help then remaining ++ ["--help"] else remaining
    let remaining2 :=
      if truthyOpt (m.lookup "command") then remaining1 ++ [pa.command] else remaining1
    ⟨[Event.hook pa.command, Event.dispatch pa.command (Yaml.map m) remaining2],
     .dispatched pa.command (Yaml.map m) remaining2⟩
  | some _ => ⟨[Event.hook pa.command], .terminated ⟨1, ["Traceback: AttributeError"]⟩⟩

/-- The command-resolution phase of `XTS._parse_first_arg`: parse the
remaining arguments against the document keys, then continue with the
selection phase; an argparse usage error terminates the process. -/
def resolvePhase (doc : ConfigDoc) (argvRest : List String) : RunResult :=
  match parseKnownArgs (doc.map Prod.fst) argvRest with
  | .error e => ⟨[], .terminated e⟩
  | .ok (pa, remaining) => selectionPhase doc pa remaining

/-- `XTS.run` composed with `XTS._parse_first_arg`: load or discover the
configuration, then resolve the command and hand off to the external
runner. -/
def xtsRun (env : Env) : RunResult :=
  match configPhase env with
  | .error e => ⟨[], .terminated e⟩
  | .ok (doc, argvRest) => resolvePhase doc argvRest

/-- The suffix convention as the claim words it: the string ends with
any single character followed by the three characters `xts`. -/
def endsWithCharXts (s : List Char) : Bool :=
  match s.reverse with
  | 's' :: 't' :: 'x' :: _ :: _ => true
  | _ => false

/-! Concrete fixtures used to exercise the theorems on closed inputs. -/

/-- A document with one leaf command (`command` key with a truthy value). -/
def docBuildMake : ConfigDoc := [("build", Yaml.map [("command", Yaml.str "make")])]

/-- A document whose only spec has a `command` key holding YAML `null`. -/
def docBuildNull : ConfigDoc := [("build", Yaml.map [("command", Yaml.null)])]

/-- A document with one section command (no `command` key). -/
def docBuildSection : ConfigDoc := [("build", Yaml.map [("steps", Yaml.str "s")])]

/-- A concrete environment: the given command line and directory
listing; exactly the listed files exist, all files are readable, and
every existing file parses to the given document. -/
def fixtureEnv (argv files : List String) (doc : ConfigDoc) : Env where
  argv := argv
  cwdFiles := files
  pathExists := fun p => files.contains p
  readable := fun _ => true
  parseYaml := fun p => if files.contains p then some doc else none

/-! Helper lemmas shared by the claim theorems. -/

/-- A successful parse resolves a command that is one of the choices. -/
theorem parseKnownArgs_ok_mem {choices args : List String} {pa : ParsedArgs}
    {remaining : List String}
    (h : parseKnownArgs choices args = .ok (pa, remaining)) : pa.command ∈ choices := by
  unfold parseKnownArgs at h
  rcases hscan : scanTokens args false false none [] with ⟨hf, c?, rem⟩
  rw [hscan] at h
  cases c? with
  | none => simp at h
  | some c =>
    by_cases hc : c ∈ choices
    · simp only [hc, if_pos, Except.ok.injEq, Prod.mk.injEq] at h
      obtain ⟨hpa, -⟩ := h
      subst hpa
      exact hc
    · simp [hc] at h

/-- Searching succeeds on any extension to the left. -/
theorem dotXtsSearch_prepend (pre : List Char) {s : List Char}
    (h : dotXtsSearch s = true) : dotXtsSearch (pre ++ s) = true := by
  induction pre with
  | nil => simpa using h
  | cons p pre ih => simp [dotXtsSearch, ih]

/-- A non-newline character followed by `xts` at the very end matches. -/
theorem dotXtsSearch_last4 {c : Char} (hc : c ≠ '\n') :
    dotXtsSearch [c, 'x', 't', 's'] = true := by
  simp [dotXtsSearch, matchHere, hc]

/-- A non-newline character followed by `xts` and a single trailing
newline also matches, because Python's `$` accepts the position before a
final newline. -/
theorem dotXtsSearch_last4_newline {c : Char} (hc : c ≠ '\n') :
    dotXtsSearch [c, 'x', 't', 's', '\n'] = true := by
  simp [dotXtsSearch, matchHere, hc]

/-- Exact characterisation of `re.search(r'.xts$', s)`: some decomposition
ends the string in a non-newline character, `x`, `t`, `s`, optionally
followed by one final newline. -/
theorem dotXtsSearch_eq_true_iff (s : List Char) :
    dotXtsSearch s = true ↔
      ∃ pre c, c ≠ '\n' ∧
        (s = pre ++ [c, 'x', 't', 's'] ∨ s = pre ++ [c, 'x', 't', 's', '\n']) := by
  constructor
  · intro h
    induction s with
    | nil => simp [dotXtsSearch] at h
    | cons a rest ih =>
      rw [dotXtsSearch] at h
      have h' : matchHere (a :: rest) = true ∨ dotXtsSearch rest = true := by
        simpa using h
      rcases h' with h1 | h2
      · cases rest with
        | nil => simp [matchHere] at h1
        | cons x rest1 =>
          cases rest1 with
          | nil => simp [matchHere] at h1
          | cons t rest2 =>
            cases rest2 with
            | nil => simp [matchHere] at h1
            | cons sc post =>
              simp only [matchHere, Bool.and_eq_true, Bool.or_eq_true, bne_iff_ne,
                beq_iff_eq, ne_eq] at h1
              obtain ⟨⟨⟨⟨ha, hx⟩, ht⟩, hs⟩, hpost⟩ := h1
              subst hx; subst ht; subst hs
              refine ⟨[], a, ha, ?_⟩
              rcases hpost with hp | hp
              · subst hp; left; rfl
              · subst hp; right; rfl
      · obtain ⟨pre, c, hc, hor⟩ := ih h2
        refine ⟨a :: pre, c, hc, ?_⟩
        rcases hor with hh | hh
        · left; rw [hh]; rfl
        · right; rw [hh]; rfl
  · rintro ⟨pre, c, hc, hor | hor⟩
    · rw [hor]; exact dotXtsSearch_prepend pre (dotXtsSearch_last4 hc)
    · rw [hor]; exact dotXtsSearch_prepend pre (dotXtsSearch_last4_newline hc)

/-! Claim theorems. -/

/-- C1: for every loaded configuration document, the set of
first-positional-argument command names the resolver can accept is
exactly the set of keys of the document: some argument list resolves to
the name if and only if the name is a key. -/
theorem accepted_command_names_eq_keys (doc : ConfigDoc) (name : String) :
    (∃ args pa remaining,
        parseKnownArgs (doc.map Prod.fst) args = .ok (pa, remaining) ∧ pa.command = name) ↔
      name ∈ doc.map Prod.fst := by
  constructor
  · rintro ⟨args, pa, remaining, hok, hcmd⟩
    exact hcmd ▸ parseKnownArgs_ok_mem hok
  · intro hmem
    refine ⟨["--", name], ⟨false, name⟩, [], ?_, rfl⟩
    have hscan : scanTokens ["--", name] false false none [] = (false, some name, []) := rfl
    unfold parseKnownArgs
    rw [hscan]
    simp [hmem]

/-- C1 witness: on the one-key document, the key `build` is accepted and
the non-key `test` is not. -/
theorem accepted_command_names_eq_keys_witness :
    (∃ args pa remaining,
        parseKnownArgs (docBuildMake.map Prod.fst) args = .ok (pa, remaining) ∧
          pa.command = "build") ∧
    ¬ ∃ args pa remaining,
        parseKnownArgs (docBuildMake.map Prod.fst) args = .ok (pa, remaining) ∧
          pa.command = "test" :=
  ⟨(accepted_command_names_eq_keys docBuildMake "build").mpr (by decide),
   fun h => by
    have := (accepted_command_names_eq_keys docBuildMake "test").mp h
    simp [docBuildMake] at this⟩

/-- C10 counterexample: the code treats `axts` followed by a newline as
matching the configuration-suffix convention (Python's `$` accepts the
position before a single trailing newline) even though that string does
not end with a character followed by `xts`, so the claimed
if-and-only-if characterisation fails on this input. -/
theorem suffix_convention_counterexample :
    dotXtsSearch ("axts\n".data) = true ∧ endsWithCharXts ("axts\n".data) = false :=
  ⟨rfl, rfl⟩

/-- C10 (amended): a string matches the suffix convention
`re.search(r'.xts$', s)` if and only if it ends with a single
non-newline character followed by `xts`, optionally followed by one
final newline; in particular `buildxts` is accepted and the bare `xts`
is rejected. -/
theorem suffix_convention_characterization :
    (∀ s : List Char, dotXtsSearch s = true ↔
        ∃ pre c, c ≠ '\n' ∧
          (s = pre ++ [c, 'x', 't', 's'] ∨ s = pre ++ [c, 'x', 't', 's', '\n'])) ∧
    dotXtsSearch ("buildxts".data) = true ∧ dotXtsSearch ("xts".data) = false :=
  ⟨dotXtsSearch_eq_true_iff, rfl, rfl⟩

/-- C10 witness: the characterisation applied to the concrete filename
`a.xts` yields an explicit suffix decomposition. -/
theorem suffix_convention_characterization_witness :
    ∃ pre c, c ≠ '\n' ∧
      ("a.xts".data = pre ++ [c, 'x', 't', 's'] ∨
        "a.xts".data = pre ++ [c, 'x', 't', 's', '\n']) :=
  (suffix_convention_characterization.1 ("a.xts".data)).mp (by decide)

/-- C2: when the first positional token after configuration loading is
not a key of the loaded document, resolution fails as an argparse usage
error with exit code 2 (non-zero), no event is emitted, and in
particular the dispatcher is never invoked. -/
theorem unknown_command_usage_error_no_dispatch
    (env : Env) (doc : ConfigDoc) (rest : List String) (name : String)
    (hconfig : configPhase env = .ok (doc, rest))
    (hfirst : (scanTokens rest false false none []).2.1 = some name)
    (hmem : name ∉ doc.map Prod.fst) :
    xtsRun env =
      ⟨[], .terminated ⟨2, ["usage error: argument COMMAND: invalid choice"]⟩⟩ := by
  have hparse : parseKnownArgs (doc.map Prod.fst) rest =
      .error ⟨2, ["usage error: argument COMMAND: invalid choice"]⟩ := by
    unfold parseKnownArgs
    rcases hscan : scanTokens rest false false none [] with ⟨hf, c?, rem⟩
    rw [hscan] at hfirst
    have hc : c? = some name := hfirst
    subst hc
    simp [hmem]
  simp [xtsRun, hconfig, resolvePhase, hparse]

/-- C2 witness: with one discovered config defining only `build`, the
unknown command `run` terminates the run with exit code 2 and an empty
event trace. -/
theorem unknown_command_usage_error_no_dispatch_witness :
    xtsRun (fixtureEnv ["run"] ["a.xts"] docBuildMake) =
      ⟨[], .terminated ⟨2, ["usage error: argument COMMAND: invalid choice"]⟩⟩ :=
  unknown_command_usage_error_no_dispatch _ docBuildMake ["run"] "run" rfl rfl (by decide)

/-- C3 counterexample: the spec `{build: {command: null}}` has a
`command` key (so the claim calls it a Leaf), yet the argument list
handed to the dispatcher is empty: the command name `build` is not
re-appended, because the code tests the truthiness of the value of
`command`, not the presence of the key. -/
theorem leaf_reinjection_counterexample :
    (List.lookup "command" [("command", Yaml.null)]).isSome = true ∧
    (xtsRun (fixtureEnv ["c.xts", "build"] ["c.xts"] docBuildNull)).outcome =
      Outcome.dispatched "build" (Yaml.map [("command", Yaml.null)]) [] ∧
    "build" ∉ ([] : List String) :=
  ⟨rfl, rfl, by decide⟩

/-- C3 (amended): if the selected spec is a mapping whose `command` key
holds a truthy value, the chosen command name is appended back onto the
remaining-argument list handed to the dispatcher. -/
theorem truthy_command_key_reinjection
    (env : Env) (doc : ConfigDoc) (rest remaining : List String)
    (pa : ParsedArgs) (m : List (String × Yaml))
    (hconfig : configPhase env = .ok (doc, rest))
    (hparse : parseKnownArgs (doc.map Prod.fst) rest = .ok (pa, remaining))
    (hlookup : doc.lookup pa.command = some (Yaml.map m))
    (htruthy : truthyOpt (m.lookup "command") = true) :
    (xtsRun env).outcome = Outcome.dispatched pa.command (Yaml.map m)
      ((if pa.help then remaining ++ ["--help"] else remaining) ++ [pa.command]) := by
  simp [xtsRun, hconfig, resolvePhase, hparse, selectionPhase, hlookup, htruthy]

/-- C3 witness: for the leaf `{build: {command: "make"}}` the dispatcher
receives `[build]`, the consumed name re-appended. -/
theorem truthy_command_key_reinjection_witness :
    (xtsRun (fixtureEnv ["c.xts", "build"] ["c.xts"] docBuildMake)).outcome =
      Outcome.dispatched "build" (Yaml.map [("command", Yaml.str "make")]) ["build"] :=
  truthy_command_key_reinjection _ docBuildMake ["build"] [] ⟨false, "build"⟩
    [("command", Yaml.str "make")] rfl rfl rfl rfl

/-- C4 counterexample: for the section `{build: {steps: "s"}}` and the
command line `c.xts build -h`, parsing leaves no unconsumed argument,
yet the dispatcher receives `[--help]`: the help flag is re-appended, so
the dispatched list is not exactly the unconsumed arguments. -/
theorem section_unconsumed_args_counterexample :
    parseKnownArgs ["build"] ["build", "-h"] = .ok (⟨true, "build"⟩, []) ∧
    (xtsRun (fixtureEnv ["c.xts", "build", "-h"] ["c.xts"] docBuildSection)).outcome =
      Outcome.dispatched "build" (Yaml.map [("steps", Yaml.str "s")]) ["--help"] ∧
    (["--help"] : List String) ≠ [] :=
  ⟨rfl, rfl, by decide⟩

/-- C4 (amended): if the selected spec is a mapping with no `command`
key, the chosen command name is not appended: the dispatcher receives
exactly the arguments left unconsumed by parsing, with `--help` appended
first when the operator requested help. -/
theorem section_no_reinjection
    (env : Env) (doc : ConfigDoc) (rest remaining : List String)
    (pa : ParsedArgs) (m : List (String × Yaml))
    (hconfig : configPhase env = .ok (doc, rest))
    (hparse : parseKnownArgs (doc.map Prod.fst) rest = .ok (pa, remaining))
    (hlookup : doc.lookup pa.command = some (Yaml.map m))
    (hnokey : m.lookup "command" = none) :
    (xtsRun env).outcome = Outcome.dispatched pa.command (Yaml.map m)
      (if pa.help then remaining ++ ["--help"] else remaining) := by
  simp [xtsRun, hconfig, resolvePhase, hparse, selectionPhase, hlookup, truthyOpt, hnokey]

/-- C4 witness: for the section `{build: {steps: "s"}}` without a help
request, the dispatcher receives exactly the unconsumed arguments (here
none), and the command name is not re-appended. -/
theorem section_no_reinjection_witness :
    (xtsRun (fixtureEnv ["c.xts", "build"] ["c.xts"] docBuildSection)).outcome =
      Outcome.dispatched "build" (Yaml.map [("steps", Yaml.str "s")]) [] :=
  section_no_reinjection _ docBuildSection ["build"] [] ⟨false, "build"⟩
    [("steps", Yaml.str "s")] rfl rfl rfl rfl

/-- C5: with no explicit configuration path and more than one candidate
file matching the suffix convention, the process prints one invocation
hint per candidate after the two introductory lines and terminates with
exit status 2 (not the generic 1), emitting no event: no candidate is
picked automatically and the dispatcher is never reached. -/
theorem multiple_configs_exit_two_with_hints
    (env : Env)
    (hno : ∀ a rest, env.argv = a :: rest → dotXtsSearch a.data = false)
    (f₁ f₂ : String) (fs : List String)
    (hfilter : env.cwdFiles.filter (fun filename => dotXtsSearch filename.data) =
      f₁ :: f₂ :: fs) :
    xtsRun env = ⟨[], .terminated ⟨2,
      infoMsg "Multiple xts file found in the current directory"
        :: "Please run one of the following commands to choose the file to use\n"
        :: (f₁ :: f₂ :: fs).map (fun filename => "\txts " ++ filename ++ " ...")⟩⟩ := by
  have hfind : findXtsConfig env = .error (userSelectConfig (f₁ :: f₂ :: fs)) := by
    unfold findXtsConfig
    rw [hfilter]
  have hconfig : configPhase env = .error (userSelectConfig (f₁ :: f₂ :: fs)) := by
    unfold configPhase
    cases hargv : env.argv with
    | nil => simp [hfind]
    | cons a rest => simp [hno a rest hargv, hfind]
  simp [xtsRun, hconfig, userSelectConfig]

/-- C5 witness: with `a.xts` and `b.xts` in the directory and no
explicit path, the process exits 2 with the two hint lines. -/
theorem multiple_configs_exit_two_with_hints_witness :
    xtsRun (fixtureEnv [] ["a.xts", "b.xts"] docBuildMake) = ⟨[], .terminated ⟨2,
      ["[yellow]Multiple xts file found in the current directory[/yellow]",
       "Please run one of the following commands to choose the file to use\n",
       "\txts a.xts ...", "\txts b.xts ..."]⟩⟩ :=
  multiple_configs_exit_two_with_hints _ (fun _ _ h => List.noConfusion h)
    "a.xts" "b.xts" [] rfl

/-- C6: with no explicit configuration path and zero candidate files
matching the suffix convention, the process terminates with exit status
1 and the `no config found` error message, before any command
resolution: the event trace is empty. -/
theorem no_config_found_exit_one
    (env : Env)
    (hno : ∀ a rest, env.argv = a :: rest → dotXtsSearch a.data = false)
    (hfilter : env.cwdFiles.filter (fun filename => dotXtsSearch filename.data) = []) :
    xtsRun env = ⟨[], .terminated ⟨1, [errorMsg "no config found"]⟩⟩ := by
  have hfind : findXtsConfig env = .error (error "no config found") := by
    unfold findXtsConfig
    rw [hfilter]
  have hconfig : configPhase env = .error (error "no config found") := by
    unfold configPhase
    cases hargv : env.argv with
    | nil => simp [hfind]
    | cons a rest => simp [hno a rest hargv, hfind]
  simp [xtsRun, hconfig, error]

/-- C6 witness: an empty working directory and no arguments yield exit
status 1 with the `no config found` message. -/
theorem no_config_found_exit_one_witness :
    xtsRun (fixtureEnv [] [] docBuildMake) =
      ⟨[], .terminated ⟨1, ["[red][bold]ERROR:[/bold] no config found[/red]"]⟩⟩ :=
  no_config_found_exit_one _ (fun _ _ h => List.noConfusion h) rfl

/-- C7: when the first command-line token matches the suffix convention
but names a path that does not exist, the process terminates with exit
status 1 and a message containing `does not exist`, with an empty event
trace, for any directory contents (no fallback to auto-discovery). -/
theorem explicit_missing_config_exit_one
    (env : Env) (p : String) (rest : List String)
    (hargv : env.argv = p :: rest)
    (hsuffix : dotXtsSearch p.data = true)
    (hexists : env.pathExists p = false) :
    xtsRun env = ⟨[], .terminated ⟨1, [errorMsg "xts config specified does not exist"]⟩⟩ ∧
    ∃ a b, (errorMsg "xts config specified does not exist").data =
      a ++ ("does not exist").data ++ b := by
  constructor
  · have hset : xtsConfigSetter env p = .error (error "xts config specified does not exist") := by
      unfold xtsConfigSetter
      simp [hexists]
    have hconfig : configPhase env = .error (error "xts config specified does not exist") := by
      unfold configPhase
      rw [hargv]
      simp [hsuffix, hset]
    simp [xtsRun, hconfig, error]
  · exact ⟨("[red][bold]ERROR:[/bold] xts config specified ").data, ("[/red]").data, rfl⟩

/-- C7 witness: `missing.xts` as first token with two other candidates
present still exits 1 with the `does not exist` message. -/
theorem explicit_missing_config_exit_one_witness :
    xtsRun (fixtureEnv ["missing.xts"] ["a.xts", "b.xts"] docBuildMake) =
      ⟨[], .terminated
        ⟨1, ["[red][bold]ERROR:[/bold] xts config specified does not exist[/red]"]⟩⟩ ∧
    ∃ a b, (errorMsg "xts config specified does not exist").data =
      a ++ ("does not exist").data ++ b :=
  explicit_missing_config_exit_one _ "missing.xts" [] rfl rfl rfl

/-- Every termination produced by the `xts_config` setter carries exit
code 1. -/
theorem xtsConfigSetter_error_code {env : Env} {p : String} {e : ExitInfo}
    (h : xtsConfigSetter env p = .error e) : e.code = 1 := by
  unfold xtsConfigSetter at h
  split at h
  · split at h
    · split at h
      · exact Except.noConfusion h
      · simp only [Except.error.injEq] at h
        subst h; rfl
    · simp only [Except.error.injEq] at h
      subst h; rfl
  · simp only [Except.error.injEq] at h
    subst h; rfl

/-- Every termination produced by configuration discovery carries exit
code 1 or 2. -/
theorem findXtsConfig_error_code {env : Env} {e : ExitInfo}
    (h : findXtsConfig env = .error e) : e.code = 1 ∨ e.code = 2 := by
  unfold findXtsConfig at h
  split at h
  · simp only [Except.error.injEq] at h
    subst h; exact .inl rfl
  · exact .inl (xtsConfigSetter_error_code h)
  · simp only [Except.error.injEq] at h
    subst h; exact .inr rfl

/-- Every termination produced by the configuration phase carries exit
code 1 or 2, in particular a non-zero code. -/
theorem configPhase_error_code {env : Env} {e : ExitInfo}
    (h : configPhase env = .error e) : e.code = 1 ∨ e.code = 2 := by
  unfold configPhase at h
  split at h
  · split at h
    · exact Except.noConfusion h
    · next heq =>
        simp only [Except.error.injEq] at h
        subst h; exact findXtsConfig_error_code heq
  · split at h
    · split at h
      · exact Except.noConfusion h
      · next heq =>
          simp only [Except.error.injEq] at h
          subst h; exact .inl (xtsConfigSetter_error_code heq)
    · split at h
      · exact Except.noConfusion h
      · next heq =>
          simp only [Except.error.injEq] at h
          subst h; exact findXtsConfig_error_code heq

/-- A successful setter call means the path existed, matched the suffix
convention, was readable, and its content fully deserialized to the
installed document. -/
theorem xtsConfigSetter_ok {env : Env} {p : String} {doc : ConfigDoc}
    (h : xtsConfigSetter env p = .ok doc) :
    env.pathExists p = true ∧ dotXtsSearch p.data = true ∧ env.readable p = true ∧
      env.parseYaml p = some doc := by
  unfold xtsConfigSetter at h
  split at h
  · next hcond =>
    split at h
    · next hread =>
      split at h
      · next heq =>
          simp only [Except.ok.injEq] at h
          subst h
          rw [Bool.and_eq_true] at hcond
          exact ⟨hcond.1, hcond.2, hread, heq⟩
      · exact Except.noConfusion h
    · exact Except.noConfusion h
  · exact Except.noConfusion h

/-- A successful discovery goes through the setter on some filename. -/
theorem findXtsConfig_ok {env : Env} {doc : ConfigDoc}
    (h : findXtsConfig env = .ok doc) :
    ∃ f, xtsConfigSetter env f = .ok doc := by
  unfold findXtsConfig at h
  split at h
  · exact Except.noConfusion h
  · next f heq => exact ⟨f, h⟩
  · exact Except.noConfusion h

/-- A successful configuration phase goes through the setter on some
path. -/
theorem configPhase_ok {env : Env} {doc : ConfigDoc} {rest : List String}
    (h : configPhase env = .ok (doc, rest)) :
    ∃ p, xtsConfigSetter env p = .ok doc := by
  unfold configPhase at h
  split at h
  · split at h
    · next heq =>
        simp only [Except.ok.injEq, Prod.mk.injEq] at h
        obtain ⟨h1, -⟩ := h
        subst h1
        exact findXtsConfig_ok heq
    · exact Except.noConfusion h
  · split at h
    · split at h
      · next heq =>
          simp only [Except.ok.injEq, Prod.mk.injEq] at h
          obtain ⟨h1, -⟩ := h
          subst h1
          exact ⟨_, heq⟩
      · exact Except.noConfusion h
    · split at h
      · next heq =>
          simp only [Except.ok.injEq, Prod.mk.injEq] at h
          obtain ⟨h1, -⟩ := h
          subst h1
          exact findXtsConfig_ok heq
      · exact Except.noConfusion h

/-- C9: configuration load is atomic.  If the configuration phase fails
for any reason, the whole run terminates there with that non-zero exit
and an empty event trace (no resolution, no hook, no dispatch); if it
succeeds, the installed document is exactly the full deserialization of
an existing, correctly suffixed, readable file — never a partial or
default document. -/
theorem config_load_atomic (env : Env) :
    (∀ e, configPhase env = .error e →
        xtsRun env = ⟨[], .terminated e⟩ ∧ e.code ≠ 0) ∧
    (∀ doc rest, configPhase env = .ok (doc, rest) →
        ∃ p, env.pathExists p = true ∧ dotXtsSearch p.data = true ∧
          env.readable p = true ∧ env.parseYaml p = some doc) := by
  constructor
  · intro e he
    refine ⟨by simp [xtsRun, he], ?_⟩
    rcases configPhase_error_code he with h | h <;> omega
  · intro doc rest hok
    obtain ⟨p, hp⟩ := configPhase_ok hok
    exact ⟨p, xtsConfigSetter_ok hp⟩

/-- C9 witness: on a concrete environment the successful phase exposes
the fully parsed document, and on a concrete failing environment (a
YAML parse error) the run terminates at once with exit code 1. -/
theorem config_load_atomic_witness :
    (∃ p, (fixtureEnv ["c.xts"] ["c.xts"] docBuildMake).pathExists p = true ∧
      dotXtsSearch p.data = true ∧
      (fixtureEnv ["c.xts"] ["c.xts"] docBuildMake).readable p = true ∧
      (fixtureEnv ["c.xts"] ["c.xts"] docBuildMake).parseYaml p = some docBuildMake) ∧
    (xtsRun ⟨["c.xts"], ["c.xts"], fun _ => true, fun _ => true, fun _ => none⟩ =
        ⟨[], .terminated ⟨1, ["Traceback: yaml parse error"]⟩⟩ ∧
      (⟨1, ["Traceback: yaml parse error"]⟩ : ExitInfo).code ≠ 0) :=
  ⟨(config_load_atomic _).2 docBuildMake [] rfl,
   (config_load_atomic _).1 ⟨1, ["Traceback: yaml parse error"]⟩ rfl⟩

/-- C8: whenever a run reaches the dispatcher, the plugin hook fired
exactly once, after the first positional argument was validated against
the document keys (the resolved command is a key of a successfully
loaded document) and before the hand-off: the full event trace is the
hook call with the resolved command name followed by the dispatch. -/
theorem plugin_hook_once_before_dispatch
    (env : Env) (cmd : String) (spec : Yaml) (args : List String)
    (hdisp : (xtsRun env).outcome = Outcome.dispatched cmd spec args) :
    (xtsRun env).events = [Event.hook cmd, Event.dispatch cmd spec args] ∧
    ∃ doc rest, configPhase env = .ok (doc, rest) ∧ cmd ∈ doc.map Prod.fst := by
  have hd := hdisp
  unfold xtsRun at hd
  rcases hconfig : configPhase env with e | ⟨doc, argvRest⟩
  · rw [hconfig] at hd
    exact absurd hd (by simp)
  · rw [hconfig] at hd
    have h2 : (resolvePhase doc argvRest).outcome = Outcome.dispatched cmd spec args := hd
    unfold resolvePhase at h2
    rcases hparse : parseKnownArgs (doc.map Prod.fst) argvRest with e | ⟨pa, remaining⟩
    · rw [hparse] at h2
      exact absurd h2 (by simp)
    · rw [hparse] at h2
      have h3 : (selectionPhase doc pa remaining).outcome = Outcome.dispatched cmd spec args := h2
      unfold selectionPhase at h3
      rcases hlook : doc.lookup pa.command with - | spec'
      · rw [hlook] at h3
        exact absurd h3 (by simp)
      · rw [hlook] at h3
        cases spec' with
        | map m =>
          have h4 : Outcome.dispatched pa.command (Yaml.map m)
              (if truthyOpt (m.lookup "command")
                then (if pa.help then remaining ++ ["--help"] else remaining) ++ [pa.command]
                else (if pa.help then remaining ++ ["--help"] else remaining)) =
              Outcome.dispatched cmd spec args := h3
          injection h4 with hcmd hspec hargs
          subst hcmd; subst hspec; subst hargs
          refine ⟨?_, doc, argvRest, rfl, parseKnownArgs_ok_mem hparse⟩
          simp only [xtsRun, hconfig, resolvePhase, hparse, selectionPhase, hlook]
        | null => exact absurd h3 (by simp)
        | bool b => exact absurd h3 (by simp)
        | int n => exact absurd h3 (by simp)
        | str s => exact absurd h3 (by simp)
        | seq xs => exact absurd h3 (by simp)

/-- C8 witness: on a concrete dispatching run the trace is exactly the
hook call followed by the dispatch, and `build` is a key of the loaded
document. -/
theorem plugin_hook_once_before_dispatch_witness :
    (xtsRun (fixtureEnv ["c.xts", "build"] ["c.xts"] docBuildMake)).events =
      [Event.hook "build",
       Event.dispatch "build" (Yaml.map [("command", Yaml.str "make")]) ["build"]] ∧
    ∃ doc rest, configPhase (fixtureEnv ["c.xts", "build"] ["c.xts"] docBuildMake) =
        .ok (doc, rest) ∧ "build" ∈ doc.map Prod.fst :=
  plugin_hook_once_before_dispatch _ "build"
    (Yaml.map [("command", Yaml.str "make")]) ["build"] rfl

end Xts
